import Mathlib

/-!
# Verification of the Flight-finder search orchestration engine

Shallow embedding, in Lean 4, of the JavaScript/TypeScript search
orchestration code of the Flight-finder repository:

* `utils` (source `unnamed/part_004`): `runWithLimit`, `withTimeout`,
  `TimeoutError`, `withRetry`;
* `app/api/flights/route.ts`: the route-local `withTimeout`/`withRetry`,
  `isoToReadableDuration`, `ensureReturnAfterDepart`, `simplifyAndRank`,
  `exec_expand_combos` validation, and the `POST` orchestration flow;
* `lib/llmAgent.ts` (source `unnamed/part_003`): the validation/normalization
  pipeline of `llmExpandCombos`.

JavaScript numbers that the claims depend on are modelled as `JsNum`
(a rational or NaN); dates as days since the Unix epoch (the source
compares millisecond timestamps of UTC midnights, which is order- and
difference-equivalent after dividing by 86,400,000); upstream I/O as
environment functions returning `Except`; the single-threaded JS event
loop of `runWithLimit` as a deterministic discrete-event simulation.
-/

namespace FlightFinder

/-! ## JavaScript number model

A JS number as the orchestrator uses it: either NaN or a rational.
(The source never produces ±Infinity on the paths the claims touch.) -/

inductive JsNum where
  | nan : JsNum
  | num (q : ℚ) : JsNum
deriving DecidableEq, Repr

/-- JS strict inequality `a !== b` on numbers: `NaN !== x` and `x !== NaN`
are `true` (including `NaN !== NaN`). -/
def jsStrictNeq : JsNum → JsNum → Bool
  | .nan, _ => true
  | _, .nan => true
  | .num a, .num b => a ≠ b

/-- JS subtraction: any operation with NaN yields NaN. -/
def jsSub : JsNum → JsNum → JsNum
  | .num a, .num b => .num (a - b)
  | _, _ => .nan

/-- Numeric value of the digit list `cs` (most significant first). -/
def digitsToNat (cs : List Char) : Nat :=
  cs.foldl (fun a c => a * 10 + (c.toNat - 48)) 0

/-- Parse an unsigned JS decimal literal (`\d*\.?\d*`, at least one digit),
as `Number()` accepts for plain decimal strings. -/
def parseUnsignedDec (cs : List Char) : Option ℚ :=
  let p := cs.span Char.isDigit
  match p.2 with
  | [] => if p.1.isEmpty then none else some (digitsToNat p.1)
  | '.' :: rest2 =>
    let f := rest2.span Char.isDigit
    if f.2.isEmpty && (!p.1.isEmpty || !f.1.isEmpty) then
      some ((digitsToNat p.1 : ℚ) + (digitsToNat f.1 : ℚ) / (10 ^ f.1.length : ℚ))
    else none
  | _ => none

/-- Parse a signed JS decimal literal. -/
def parseSignedDec : List Char → Option ℚ
  | '+' :: rest => parseUnsignedDec rest
  | '-' :: rest => (parseUnsignedDec rest).map Neg.neg
  | cs => parseUnsignedDec cs

/-- Leading/trailing-whitespace trim on the character list (the kernel
cannot reduce `String.trim`'s byte-position loops, so string functions are
modelled on `List Char` throughout). -/
def trimCharList (cs : List Char) : List Char :=
  ((cs.dropWhile Char.isWhitespace).reverse.dropWhile Char.isWhitespace).reverse

/-- `s.toUpperCase()` (ASCII duty is all the source needs for IATA codes
and cabin letters). -/
def jsToUpper (s : String) : String :=
  (s.toList.map Char.toUpper).asString

/-- `s.trim()`. -/
def jsTrim (s : String) : String :=
  (trimCharList s.toList).asString

/-- `s.slice(0, n)`. -/
def jsSlice (s : String) (n : Nat) : String :=
  (s.toList.take n).asString

/-- Model of JS `Number(s)` for a string: whitespace is trimmed, the empty
string converts to `0`, a (signed) decimal literal to its value, anything
else to NaN.  (This models the sign/integer/fraction fragment of `ToNumber`;
exponent, hex and `Infinity` forms — which never arise for the price strings
of the upstream API — are mapped to NaN.) -/
def jsNumber (s : String) : JsNum :=
  let t := trimCharList s.toList
  if t.isEmpty then .num 0
  else match parseSignedDec t with
    | some q => .num q
    | none => .nan

/-! ## JavaScript date model

The source parses calendar dates with `new Date(s + "T00:00:00Z").getTime()`
or `new Date(s).getTime()` on date-only strings, both of which interpret the
ECMAScript date-only forms `YYYY`, `YYYY-MM`, `YYYY-MM-DD` as UTC midnight
and yield NaN otherwise.  We model the result in days since 1970-01-01
(`none` = NaN); the source only ever compares or subtracts two such values,
which is invariant under the ms→day rescaling. -/

def isLeapYear (y : Int) : Bool :=
  y % 4 = 0 && (y % 100 ≠ 0 || y % 400 = 0)

/-- Cumulative days before month `m` (1-based) in a non-leap year. -/
def cumDaysBeforeMonth : Nat → Nat
  | 1 => 0 | 2 => 31 | 3 => 59 | 4 => 90 | 5 => 120 | 6 => 151
  | 7 => 181 | 8 => 212 | 9 => 243 | 10 => 273 | 11 => 304 | 12 => 334
  | _ => 0

/-- Length of month `m` (1-based) in year `y` (proleptic Gregorian). -/
def daysInMonth (y : Int) (m : Nat) : Nat :=
  if m = 2 then (if isLeapYear y then 29 else 28)
  else if m = 4 || m = 6 || m = 9 || m = 11 then 30 else 31

/-- Days from 0000-03-01-style epoch: days before Jan 1 of year `y`
(proleptic Gregorian, floor division for correctness at all years). -/
def daysBeforeYear (y : Int) : Int :=
  365 * y + Int.fdiv y 4 - Int.fdiv y 100 + Int.fdiv y 400

/-- Days since the Unix epoch of the UTC date y-m-d. -/
def civilDays (y : Int) (m d : Nat) : Int :=
  (daysBeforeYear (y - 1) + (cumDaysBeforeMonth m : Int)
    + (if 2 < m && isLeapYear y then 1 else 0) + (d : Int) - 1)
  - (daysBeforeYear 1969)

def isDigitChar (c : Char) : Bool := c.isDigit

def digitVal (c : Char) : Nat := c.toNat - 48

/-- Model of `new Date(s + "T00:00:00Z").getTime()` (equivalently
`new Date(s)` for date-only `s`), in days since the epoch; `none` is NaN.
Accepts the ECMAScript date-only forms `YYYY`, `YYYY-MM`, `YYYY-MM-DD`
with in-range month and day (V8 rejects out-of-range components). -/
def jsDateDays (s : String) : Option Int :=
  match s.toList with
  | [a, b, c, d] =>
    if [a, b, c, d].all isDigitChar then
      some (civilDays (digitsToNat [a, b, c, d]) 1 1)
    else none
  | [a, b, c, d, '-', e, f] =>
    if [a, b, c, d, e, f].all isDigitChar then
      let m := digitsToNat [e, f]
      if 1 ≤ m && m ≤ 12 then some (civilDays (digitsToNat [a, b, c, d]) m 1)
      else none
    else none
  | [a, b, c, d, '-', e, f, '-', g, h] =>
    if [a, b, c, d, e, f, g, h].all isDigitChar then
      let y : Int := digitsToNat [a, b, c, d]
      let m := digitsToNat [e, f]
      let dd := digitsToNat [g, h]
      if 1 ≤ m && m ≤ 12 && 1 ≤ dd && dd ≤ daysInMonth y m then
        some (civilDays y m dd)
      else none
    else none
  | _ => none

/-! ## `isoToReadableDuration` (route.ts lines 60–65)

```js
function isoToReadableDuration(iso?: string) {
  if (!iso?.startsWith("PT")) return "";
  const h = /PT(\d+)H/.exec(iso)?.[1];
  const m = /(\d+)M/.exec(iso)?.[1];
  return `${h ? `${h}h` : ""}${h && m ? " " : ""}${m ? `${m}m` : ""}` || iso;
}
```
The two regex searches are modelled by a left-to-right scan; at each start
position `\d+` is greedy and the literal that follows admits no backtracking
into the digit run, so "maximal digit run then the literal" is exact. -/

/-- Try `/PT(\d+)H/` anchored at the head of `cs`. -/
def tryPTH (cs : List Char) : Option (List Char) :=
  match cs with
  | c1 :: c2 :: rest =>
    if c1 = 'P' ∧ c2 = 'T' then
      let p := rest.span Char.isDigit
      if !p.1.isEmpty && p.2.head? = some 'H' then some p.1 else none
    else none
  | _ => none

/-- Leftmost match of `/PT(\d+)H/`, returning the captured digit run. -/
def execPTH : List Char → Option (List Char)
  | [] => none
  | c :: cs =>
    match tryPTH (c :: cs) with
    | some d => some d
    | none => execPTH cs

/-- Try `/(\d+)M/` anchored at the head of `cs`. -/
def tryDigitsM (cs : List Char) : Option (List Char) :=
  let p := cs.span Char.isDigit
  if !p.1.isEmpty && p.2.head? = some 'M' then some p.1 else none

/-- Leftmost match of `/(\d+)M/`, returning the captured digit run. -/
def execDigitsM : List Char → Option (List Char)
  | [] => none
  | c :: cs =>
    match tryDigitsM (c :: cs) with
    | some d => some d
    | none => execDigitsM cs

/-- `isoToReadableDuration` from route.ts (same body in `unnamed/part_000`
and `unnamed/part_001`).  `iso = none` models an `undefined` argument
(`iso?.startsWith` is then `undefined`, hence falsy). -/
def isoToReadableDuration (iso : Option String) : String :=
  match iso with
  | none => ""
  | some s =>
    match s.toList with
    | c1 :: c2 :: rest =>
      if c1 = 'P' ∧ c2 = 'T' then
        let h := execPTH (c1 :: c2 :: rest)
        let m := execDigitsM (c1 :: c2 :: rest)
        let rendered :=
          (match h with | some d => d.asString ++ "h" | none => "")
          ++ (if h.isSome && m.isSome then " " else "")
          ++ (match m with | some d => d.asString ++ "m" | none => "")
        if rendered = "" then s else rendered
      else ""
    | _ => ""

/-! ## `runWithLimit` (utils/concurrency, `unnamed/part_004` lines 1–36)

```js
export async function runWithLimit(items, limit, worker) {
  return new Promise((resolve) => {
    let i = 0, active = 0, done = false;
    const next = () => {
      if (done) return;
      if (i >= items.length && active === 0) return resolve(null);
      while (active < limit && i < items.length) {
        const idx = i++; active++;
        worker(items[idx])
          .then((res) => { active--;
            if (!done && res) { done = true; resolve(res); } else { next(); } })
          .catch(() => { active--; next(); });
      }
    };
    next();
  });
}
```

JS runs this on a single-threaded event loop, so given each worker's
settlement behaviour the execution is deterministic.  A worker either never
settles, or settles at a wall-clock time `t` with `some r` (fulfilled with a
truthy result), or with `none` (fulfilled `null` / rejected — the two are
handled identically: `active--; next()`).  The simulation starts workers
exactly as the `while` loop does and always fires the pending settlement
with the least `(t, index)` next (settle times are distinct in the scenarios
considered, so the tie-break is irrelevant). -/

inductive CandBehavior (R : Type) where
  | never : CandBehavior R
  | settle (t : Nat) (res : Option R) : CandBehavior R
deriving DecidableEq, Repr

structure RaceStats where
  started : List Nat
  maxInflight : Nat
deriving DecidableEq, Repr

inductive RaceOutcome (R : Type) where
  /-- The promise resolves with a truthy worker result. -/
  | success (r : R) (st : RaceStats) : RaceOutcome R
  /-- `i >= items.length && active === 0`: the promise resolves with `null`. -/
  | exhausted (st : RaceStats) : RaceOutcome R
  /-- Some workers are in flight but none will ever settle:
  the promise never settles. -/
  | hung (st : RaceStats) : RaceOutcome R
  | fuelOut : RaceOutcome R
deriving DecidableEq, Repr

/-- The `while (active < limit && i < items.length)` filling loop.
`fuel` only bounds the iteration count (each iteration increments `i` and
demands `i < items.length`, so `items.length` iterations always suffice);
it is structural so that closed runs reduce in the kernel. -/
def raceFill (items : List (CandBehavior R)) (limit : Nat) :
    Nat → Nat → List (Nat × CandBehavior R) → List Nat →
    Nat × List (Nat × CandBehavior R) × List Nat
  | 0, i, inflight, started => (i, inflight, started)
  | fuel + 1, i, inflight, started =>
    if h : inflight.length < limit ∧ i < items.length then
      raceFill items limit fuel (i + 1) (inflight ++ [(i, items.get ⟨i, h.2⟩)])
        (started ++ [i])
    else (i, inflight, started)

/-- The pending settlement that fires first: least `(t, index)` among
in-flight workers that do settle. -/
def raceFindMin (inflight : List (Nat × CandBehavior R)) :
    Option (Nat × Nat × Option R) :=
  inflight.foldl
    (fun acc e =>
      match e with
      | (_, .never) => acc
      | (idx, .settle t res) =>
        match acc with
        | none => some (idx, t, res)
        | some (bidx, bt, bres) =>
          if t < bt || (t = bt && idx < bidx) then some (idx, t, res)
          else some (bidx, bt, bres))
    none

/-- One simulation run; `fuel` bounds the number of settlement events
(each event consumes one in-flight worker, so `items.length + 1` always
suffices). -/
def raceGo (items : List (CandBehavior R)) (limit : Nat) :
    Nat → Nat → List (Nat × CandBehavior R) → List Nat → Nat → RaceOutcome R
  | 0, _, _, _, _ => .fuelOut
  | fuel + 1, i, inflight, started, mx =>
    match raceFill items limit items.length i inflight started with
    | (i', fl, st) =>
      let mx' := max mx fl.length
      if fl.isEmpty && items.length ≤ i' then .exhausted ⟨st, mx'⟩
      else
        match raceFindMin fl with
        | none => .hung ⟨st, mx'⟩
        | some (idx, _, res) =>
          match res with
          | some r => .success r ⟨st, mx'⟩
          | none => raceGo items limit fuel i' (fl.filter (fun e => e.1 ≠ idx)) st mx'

/-- Deterministic outcome of `runWithLimit(items, limit, worker)` given each
worker's settlement behaviour. -/
def runWithLimitModel (items : List (CandBehavior R)) (limit : Nat) :
    RaceOutcome R :=
  raceGo items limit (items.length + 1) 0 [] [] 0

/-- The value `runWithLimit`'s promise resolves with (`none` when it
resolves `null` or never resolves). -/
def raceValue : RaceOutcome R → Option R
  | .success r _ => some r
  | _ => none

/-- The indices of the candidates that were started. -/
def raceStarted : RaceOutcome R → List Nat
  | .success _ st => st.started
  | .exhausted st => st.started
  | .hung st => st.started
  | .fuelOut => []

/-! ## `TimeoutError`, `withTimeout`, `withRetry` (`unnamed/part_004` 38–87)

A thrown JS value is modelled by its `name`, `message`, and whether it is an
`instanceof TimeoutError`.  A single attempt of an operation is modelled by
its settlement `Except JsError α`; an attempt that exceeds the deadline
surfaces as a rejection whose `name` is `"AbortError"` (the abort signal
fires and `fetch` rejects), which `withTimeout` converts to `TimeoutError`. -/

structure JsError where
  name : String
  message : String
  isTimeoutInstance : Bool
deriving DecidableEq, Repr

instance {ε α : Type _} [DecidableEq ε] [DecidableEq α] :
    DecidableEq (Except ε α) := fun x y =>
  match x, y with
  | .ok a, .ok b =>
    if h : a = b then .isTrue (by rw [h])
    else .isFalse (by intro hc; injection hc; contradiction)
  | .error a, .error b =>
    if h : a = b then .isTrue (by rw [h])
    else .isFalse (by intro hc; injection hc; contradiction)
  | .ok _, .error _ => .isFalse (by intro hc; exact Except.noConfusion hc)
  | .error _, .ok _ => .isFalse (by intro hc; exact Except.noConfusion hc)

/-- `new TimeoutError(ms)`:
`name = "TimeoutError"`, message from the `withTimeout` call site. -/
def timeoutError (ms : Nat) : JsError :=
  ⟨"TimeoutError", "Upstream call exceeded " ++ toString ms ++ "ms", true⟩

/-- `throw lastErr` when the loop never ran (`attempts = 0`):
JS throws `undefined`. -/
def undefinedJsError : JsError := ⟨"undefined", "", false⟩

/-- `p` occurs at the head of `s`. -/
def leadsWith : List Char → List Char → Bool
  | [], _ => true
  | _ :: _, [] => false
  | p :: ps, c :: cs => p = c && leadsWith ps cs

/-- `p` occurs somewhere in `s` (substring test, as a JS regex of literal
alternatives performs). -/
def hasSub : List Char → List Char → Bool
  | pat, [] => pat.isEmpty
  | pat, c :: cs => leadsWith pat (c :: cs) || hasSub pat cs

/-- `/ECONNRESET|ETIMEDOUT|EAI_AGAIN|503|504/.test(msg)` -/
def transientMessageTest (msg : String) : Bool :=
  hasSub "ECONNRESET".toList msg.toList || hasSub "ETIMEDOUT".toList msg.toList
    || hasSub "EAI_AGAIN".toList msg.toList || hasSub "503".toList msg.toList
    || hasSub "504".toList msg.toList

/-- The `transient` test of `withRetry` (`unnamed/part_004` lines 77–81). -/
def isTransient (e : JsError) : Bool :=
  e.name = "AbortError" || e.isTimeoutInstance || transientMessageTest e.message

namespace Utils

/-- `withTimeout` (`unnamed/part_004` lines 45–61): an `AbortError`
rejection is rethrown as `TimeoutError(ms)`; everything else passes
through. -/
def withTimeout (outcome : Except JsError α) (ms : Nat) : Except JsError α :=
  match outcome with
  | .error e => if e.name = "AbortError" then .error (timeoutError ms) else .error e
  | .ok v => .ok v

/-- The `for (let i = 0; i < attempts; i++)` loop of `withRetry`
(`unnamed/part_004` lines 63–87).  `op j` is the settlement of the `j`-th
invocation of the operation; the returned `Nat` counts invocations.
`remaining + i = attempts`, so `remaining = 1` on the last attempt. -/
def withRetryGo (op : Nat → Except JsError α) (ms : Nat) :
    Nat → Nat → Except JsError α × Nat
  | _, 0 => (.error undefinedJsError, 0)
  | i, remaining + 1 =>
    match withTimeout (op i) ms with
    | .ok v => (.ok v, 1)
    | .error e =>
      if !isTransient e || remaining = 0 then (.error e, 1)
      else
        match withRetryGo op ms (i + 1) remaining with
        | (res, n) => (res, n + 1)

/-- `withRetry(op, { attempts, timeoutMs })` from `unnamed/part_004`,
returning its settlement together with how many times `op` was invoked.
(The linear `backoffMs` wait affects no settlement value and is not
modelled.) -/
def withRetry (op : Nat → Except JsError α) (attempts ms : Nat) :
    Except JsError α × Nat :=
  withRetryGo op ms 0 attempts

end Utils

namespace Route

/-- The route-local `withTimeout` (route.ts lines 70–81): it aborts the
signal on expiry but has no `catch` clause, so the settlement of the
attempt passes through unchanged (no `TimeoutError` conversion). -/
def withTimeout (outcome : Except JsError α) (_ms : Nat) : Except JsError α :=
  outcome

/-- The route-local `withRetry` loop (route.ts lines 82–96): every failed
attempt is retried — there is no transient-failure test. -/
def withRetryGo (op : Nat → Except JsError α) (ms : Nat) :
    Nat → Nat → Except JsError α × Nat
  | _, 0 => (.error undefinedJsError, 0)
  | i, remaining + 1 =>
    match withTimeout (op i) ms with
    | .ok v => (.ok v, 1)
    | .error e =>
      if remaining = 0 then (.error e, 1)
      else
        match withRetryGo op ms (i + 1) remaining with
        | (res, n) => (res, n + 1)

/-- `withRetry(fn, { attempts, timeoutMs })` from route.ts lines 82–96,
with invocation count. -/
def withRetry (op : Nat → Except JsError α) (attempts ms : Nat) :
    Except JsError α × Nat :=
  withRetryGo op ms 0 attempts

end Route

/-! ## `simplifyAndRank` (route.ts lines 133–158)

```js
function simplifyAndRank(offers) {
  const results = offers.map((o) => {
    const it = o.itineraries?.[0];
    const segs = it?.segments ?? [];
    return {
      price: Number(o.price?.grandTotal || 0),
      duration: isoToReadableDuration(it?.duration),
      stops: Math.max(0, segs.length - 1),
      route: segs.map((s) =>
        `${s.departure?.iataCode}→${s.arrival?.iataCode} (${s.carrierCode}${s.number ?? ""})`
      ).join(" · "),
      carriers: Array.from(new Set(segs.map((s) => s.carrierCode))).sort(),
      deep_link: null,
      _raw: { id: o.id },
    };
  });
  results.sort((a, b) => a.price !== b.price ? a.price - b.price : a.stops - b.stops);
  return results.slice(0, 12);
}
```

`Array.prototype.sort` is required by ECMAScript to be stable, and
`SortCompare` maps a NaN comparator value to `+0`; with a consistent
comparator the result is the unique stable sort, here realised by
`List.mergeSort` (itself a stable algorithm) on the comparator's
"does not come after" Boolean. -/

structure RawSegment where
  depIata : Option String
  arrIata : Option String
  carrierCode : Option String
  number : Option String
deriving DecidableEq, Repr

structure RawItinerary where
  duration : Option String
  segments : Option (List RawSegment)
deriving DecidableEq, Repr

structure RawPriceObj where
  grandTotal : Option String
deriving DecidableEq, Repr

/-- A raw offer as `simplifyAndRank` consumes it: every field it touches
may be absent. -/
structure RawOffer where
  price : Option RawPriceObj
  itineraries : Option (List RawItinerary)
  id : Option String
deriving DecidableEq, Repr

structure SimplifiedOffer where
  price : JsNum
  duration : String
  stops : Nat
  route : String
  carriers : List String
  rawId : Option String
deriving DecidableEq, Repr

/-- JS template interpolation of a possibly-`undefined` string. -/
def jsTemplate (o : Option String) : String := o.getD "undefined"

/-- `Number(v || 0)` for `v = o.price?.grandTotal`: `undefined` and the
empty string are falsy, so they convert to `0`. -/
def jsNumberOrZero (v : Option String) : JsNum :=
  match v with
  | none => .num 0
  | some s => if s = "" then .num 0 else jsNumber s

/-- One element of the segment `route` text. -/
def segText (s : RawSegment) : String :=
  jsTemplate s.depIata ++ "→" ++ jsTemplate s.arrIata ++ " ("
    ++ jsTemplate s.carrierCode ++ s.number.getD "" ++ ")"

/-- `Array.from(new Set(l))`: deduplicate preserving first insertion. -/
def jsSetOfList (l : List String) : List String :=
  l.foldl (fun acc x => if x ∈ acc then acc else acc ++ [x]) []

/-- Default (comparator-less) JS string sort. -/
def strLe (a b : String) : Bool := a ≤ b

/-- The per-offer mapping inside `simplifyAndRank`. -/
def simplifyOffer (o : RawOffer) : SimplifiedOffer :=
  let it := o.itineraries.bind List.head?
  let segs := (it.bind RawItinerary.segments).getD []
  { price := jsNumberOrZero (o.price.bind RawPriceObj.grandTotal)
    duration := isoToReadableDuration (it.bind RawItinerary.duration)
    stops := segs.length - 1
    route := String.intercalate " · " (segs.map segText)
    carriers :=
      (jsSetOfList (segs.map (fun s => jsTemplate s.carrierCode))).mergeSort strLe
    rawId := o.id }

/-- The sort comparator
`(a, b) => a.price !== b.price ? a.price - b.price : a.stops - b.stops`. -/
def offerComparator (a b : SimplifiedOffer) : JsNum :=
  if jsStrictNeq a.price b.price then jsSub a.price b.price
  else .num ((a.stops : ℚ) - (b.stops : ℚ))

/-- `a` need not come after `b` under the comparator: the `SortCompare`
value is `≤ 0`, a NaN comparator value counting as `+0`. -/
def offerSortLe (a b : SimplifiedOffer) : Bool :=
  match offerComparator a b with
  | .nan => true
  | .num q => q ≤ 0

/-- `simplifyAndRank` from route.ts: map, stable sort, `slice(0, 12)`. -/
def simplifyAndRank (offers : List RawOffer) : List SimplifiedOffer :=
  ((offers.map simplifyOffer).mergeSort offerSortLe).take 12

/-! ## Combo validation (`llmExpandCombos`, `unnamed/part_003` lines 121–149;
`exec_expand_combos`, route.ts lines 268–293)

Both sources run the identical normalize-and-filter pipeline over the raw
candidate records produced by the LLM; they differ only in the final cap
(`slice(0, 12)` in `llmExpandCombos`, `slice(0, 8)` in
`exec_expand_combos`). -/

/-- A raw candidate record.  A missing field is modelled by `""` for the
string fields (the source reads them as `String(c.x || "")`) and by `none`
for `ret` (`null`/`undefined`). -/
structure RawCombo where
  origin : String
  destination : String
  depart : String
  ret : Option String
deriving DecidableEq, Repr

structure Combo where
  origin : String
  destination : String
  depart : String
  ret : Option String
deriving DecidableEq, Repr

/-- The `.map` normalization step: uppercase + trim the codes, truncate
dates to 10 characters; a falsy `ret` becomes `null`. -/
def normalizeCombo (c : RawCombo) : Combo :=
  { origin := jsTrim (jsToUpper c.origin)
    destination := jsTrim (jsToUpper c.destination)
    depart := jsSlice c.depart 10
    ret := match c.ret with
      | none => none
      | some r => if r = "" then none else some (jsSlice r 10) }

/-- The `.filter` predicate: non-empty codes and depart, parseable depart
not before today, and (when a return date is present) a parseable return
not before the depart. -/
def comboValid (today : Int) (c : Combo) : Bool :=
  c.origin ≠ "" && c.destination ≠ "" && c.depart ≠ "" &&
    match jsDateDays c.depart with
    | none => false
    | some d =>
      today ≤ d &&
        match c.ret with
        | none => true
        | some r =>
          match jsDateDays r with
          | none => false
          | some rd => d ≤ rd

/-- The shared pipeline, parameterized by the final cap. -/
def validateCombos (cap : Nat) (today : Int) (raw : List RawCombo) : List Combo :=
  (((raw.map normalizeCombo).filter (comboValid today)).take cap)

/-- The `llmExpandCombos` validation (`unnamed/part_003`): cap 12. -/
def llmExpandCombosValidate (today : Int) (raw : List RawCombo) : List Combo :=
  validateCombos 12 today raw

/-- The `exec_expand_combos` validation (route.ts): cap 8. -/
def execExpandCombosValidate (today : Int) (raw : List RawCombo) : List Combo :=
  validateCombos 8 today raw

/-! ## The `POST` orchestration flow (route.ts lines 423–593)

Upstream effects are an environment: the settlement of one
`searchFlightOffers` call per query (the route's `withRetry`/`withTimeout`
wrappers never alter a settlement — the route-local `withTimeout` does not
convert aborts, and the route-local `withRetry` retries every failure and
finally rethrows the last, identical, settlement), the settlement of the
`exec_parse_query` LLM call, the settlement of the `exec_expand_combos`
LLM call (its raw combo list before validation), and today's UTC date.
The model additionally records which upstream queries were issued. -/

/-- The arguments of one `searchFlightOffers` call. -/
structure Query where
  origin : String
  destination : String
  departDate : String
  returnDate : Option String
  adults : Nat
  cabin : String
  currency : String
  maxResults : Nat
deriving DecidableEq, Repr

/-- The `used` record of the response (`note` is the field the downgrade
branch spreads into it). -/
structure Used where
  origin : String
  destination : String
  departDate : String
  returnDate : Option String
  note : Option String
deriving DecidableEq, Repr

/-- The JSON value the handler replies with. -/
inductive Resp where
  /-- 200 with `{ results, used, expandedByLLM }` (plus a top-level `note`
  in the empty-results reply). -/
  | ok (results : List SimplifiedOffer) (used : Used) (expandedByLLM : Bool)
      (note : Option String) : Resp
  /-- 400 with `{ error }`. -/
  | clientErr (msg : String) : Resp
  /-- 500 with `{ error }` from the outer `catch`. -/
  | serverErr (msg : String) : Resp
deriving DecidableEq, Repr

/-- The result of `exec_parse_query` (all fields optional in the LLM's
JSON). -/
structure Parsed where
  origin : Option String
  destination : Option String
  depart : Option String
  ret : Option String
  adults : Option Nat
  cabin : Option String
deriving DecidableEq, Repr

/-- The request body.  `fromCode`/`toCode` model `body.from`/`body.to`
(`from` is reserved in Lean);  `adults` is modelled as the already-converted
numeric value (`Math.max(1, Number(body.adults || 1))` with a numeric
field), which no claim depends on. -/
structure Body where
  query : Option String
  fromCode : Option String
  toCode : Option String
  depart : Option String
  ret : Option String
  adults : Option Nat
  cabin : Option String
deriving DecidableEq, Repr

/-- The upstream world of one request. -/
structure Env where
  /-- Settlement of `searchFlightOffers` per query. -/
  search : Query → Except JsError (List RawOffer)
  /-- Settlement of the `exec_expand_combos` LLM call: the raw combo list
  (before the validation pipeline), or the rejection. -/
  llmCombos : Except JsError (List RawCombo)
  /-- Settlement of the `exec_parse_query` call. -/
  parse : Except JsError Parsed
  /-- Today's UTC calendar date, in days since the epoch. -/
  today : Int

/-- JS truthiness of a possibly-absent string. -/
def jsTruthy (o : Option String) : Bool :=
  match o with
  | none => false
  | some s => s ≠ ""

/-- The string-keyed members every plain object literal inherits from
`Object.prototype` (`__proto__` is the accessor returning the prototype
object; the rest are built-in functions).  A property read with one of
these keys on `cabinMap` misses the own properties but hits the prototype
chain and returns the inherited — truthy — value. -/
def objectProtoKeys : List String :=
  ["constructor", "hasOwnProperty", "isPrototypeOf", "propertyIsEnumerable",
   "toLocaleString", "toString", "valueOf", "__proto__",
   "__defineGetter__", "__defineSetter__", "__lookupGetter__",
   "__lookupSetter__"]

/-- The string the inherited `Object.prototype` member for key `k` renders
as when the cabin value reaches `URLSearchParams` (Node/V8:
`String(Object.prototype[k])`).  `__proto__` yields the prototype object
(`"[object Object]"`); `constructor` is the `Object` function; the rest
are native functions named `k`.  Representing the inherited value by this
rendering is observationally equivalent in the handler: the value is only
ever compared with `=== "BUSINESS"` (false either way, no rendering equals
`"BUSINESS"`) and stringified into the `travelClass` query parameter. -/
def jsInheritedCabinRender (k : String) : String :=
  if k = "__proto__" then "[object Object]"
  else if k = "constructor" then "function Object() { [native code] }"
  else "function " ++ k ++ "() { [native code] }"

/-- `cabinMap[k] || "ECONOMY"` for
`cabinMap = { M: "ECONOMY", W: "PREMIUM_ECONOMY", C: "BUSINESS", F: "FIRST" }`.
JS property access consults the prototype chain: for the four own keys the
mapped cabin string is returned; for an `Object.prototype` member name the
inherited truthy value is returned, so `|| "ECONOMY"` does **not** fire;
only for all remaining keys is the access `undefined` (falsy) and the
`"ECONOMY"` default applied. -/
def cabinMapLookup (k : String) : String :=
  if k = "M" then "ECONOMY"
  else if k = "W" then "PREMIUM_ECONOMY"
  else if k = "C" then "BUSINESS"
  else if k = "F" then "FIRST"
  else if k ∈ objectProtoKeys then jsInheritedCabinRender k
  else "ECONOMY"

/-- The six local variables of the handler after input resolution. -/
structure Params where
  origin : String
  destination : String
  depart : String
  ret : Option String
  adults : Nat
  cabin : String
deriving DecidableEq, Repr

/-- Input resolution (route.ts lines 435–458): the free-text path via
`exec_parse_query` when `body.query` is truthy (its rejection propagates to
the outer `catch`), else the structured path with the `cabinMap`
single-letter mapping. -/
def paramsOfBody (env : Env) (b : Body) : Except JsError Params :=
  if jsTruthy b.query then
    match env.parse with
    | .error e => .error e
    | .ok p =>
      .ok { origin := jsToUpper (p.origin.getD "")
            destination := jsToUpper (p.destination.getD "")
            depart := p.depart.getD ""
            ret := match p.ret with
              | none => none
              | some s => if s = "" then none else some s
            adults := max 1 (p.adults.getD 1)
            cabin := jsToUpper (match p.cabin with
              | none => "ECONOMY"
              | some s => if s = "" then "ECONOMY" else s) }
  else
    .ok { origin := jsToUpper (b.fromCode.getD "")
          destination := jsToUpper (b.toCode.getD "")
          depart := b.depart.getD ""
          ret := match b.ret with
            | none => none
            | some s => if s = "" then none else some s
          adults := max 1 (b.adults.getD 1)
          cabin := cabinMapLookup (match b.cabin with
            | none => "M"
            | some s => if s = "" then "M" else s) }

/-- `ensureReturnAfterDepart` (route.ts lines 66–69): keep `ret` unchanged
when either argument is falsy, otherwise keep it only when
`new Date(ret) >= new Date(dep)` (false for unparseable dates). -/
def ensureReturnAfterDepart (dep : String) (ret : Option String) : Option String :=
  if dep = "" then ret
  else
    match ret with
    | none => none
    | some r =>
      if r = "" then some r
      else
        match jsDateDays r, jsDateDays dep with
        | some a, some b => if b ≤ a then some r else none
        | _, _ => none

/-- The expansion `score` (route.ts lines 504–512): −2 for keeping each
endpoint, plus the absolute date drift in days (`Math.abs(d1 − d0)` divided
by the ms-per-day constant); NaN when either date fails to parse. -/
def scoreCombo (baseOrigin baseDest baseDepart : String) (c : Combo) : JsNum :=
  let s : ℚ :=
    (if c.origin = baseOrigin then -2 else 0)
      + (if c.destination = baseDest then -2 else 0)
  match jsDateDays baseDepart, jsDateDays c.depart with
  | some d0, some d1 => .num (s + ((d1 - d0).natAbs : ℚ))
  | _, _ => .nan

/-- `(a, b) => score(a) - score(b)` as the stable-sort Boolean. -/
def scoreLe (baseOrigin baseDest baseDepart : String) (a b : Combo) : Bool :=
  match jsSub (scoreCombo baseOrigin baseDest baseDepart a)
      (scoreCombo baseOrigin baseDest baseDepart b) with
  | .nan => true
  | .num q => q ≤ 0

/-- The query issued for one expansion candidate (route.ts lines 518–531). -/
def comboQuery (adults : Nat) (cabin : String) (c : Combo) : Query :=
  { origin := jsToUpper c.origin
    destination := jsToUpper c.destination
    departDate := c.depart
    returnDate := ensureReturnAfterDepart c.depart c.ret
    adults := adults
    cabin := cabin
    currency := "USD"
    maxResults := 30 }

/-- The `for (const c of ordered)` loop (route.ts lines 515–546): issue the
candidate's query, swallow a rejection, stop at the first non-empty offer
list.  Returns the queries issued (in order) and the winning offers with
their `used` record. -/
def tryCombos (env : Env) (adults : Nat) (cabin : String) :
    List Combo → List Query × Option (List RawOffer × Used)
  | [] => ([], none)
  | c :: rest =>
    let q := comboQuery adults cabin c
    match env.search q with
    | .error _ =>
      match tryCombos env adults cabin rest with
      | (qs, r) => (q :: qs, r)
    | .ok l =>
      if l.isEmpty then
        match tryCombos env adults cabin rest with
        | (qs, r) => (q :: qs, r)
      else
        ([q], some (l, ⟨q.origin, q.destination, q.departDate, q.returnDate, none⟩))

/-- The primary query (route.ts lines 470–484). -/
def primaryQuery (p : Params) : Query :=
  { origin := p.origin
    destination := p.destination
    departDate := p.depart
    returnDate := ensureReturnAfterDepart p.depart p.ret
    adults := p.adults
    cabin := p.cabin
    currency := "USD"
    maxResults := 50 }

/-- The cabin-downgrade query (route.ts lines 550–564). -/
def econQuery (p : Params) : Query :=
  { origin := p.origin
    destination := p.destination
    departDate := p.depart
    returnDate := ensureReturnAfterDepart p.depart p.ret
    adults := p.adults
    cabin := "ECONOMY"
    currency := "USD"
    maxResults := 20 }

/-- The expansion candidates actually raced (route.ts lines 497–513):
`exec_expand_combos` validation (cap 8), then the score sort and
`slice(0, 8)`. -/
def expandedCandidates (env : Env) (p : Params) : List Combo :=
  match env.llmCombos with
  | .error _ => []
  | .ok raw =>
    (((validateCombos 8 env.today raw).mergeSort
        (scoreLe p.origin p.destination p.depart)).take 8)

/-- `String(e.message || e)` of the outer `catch`. -/
def jsErrString (e : JsError) : String :=
  if e.message = "" then e.name else e.message

def noOffersExpandedNote : String :=
  "No offers found even after expanding via AI. Try broader dates or airports."

def noOffersPlainNote : String :=
  "No offers found. We can try AI-based expansion if you enable it."

/-- The `if (!offers?.length) ... return` / `simplifyAndRank` tail of the
handler (route.ts lines 573–586). -/
def finishResp (offers : List RawOffer) (used : Used) (expanded : Bool) : Resp :=
  if offers.isEmpty then
    .ok [] used expanded
      (some (if expanded then noOffersExpandedNote else noOffersPlainNote))
  else .ok (simplifyAndRank offers) used expanded none

/-- The handler's reply together with the trace of issued upstream
queries. -/
structure PostOut where
  resp : Resp
  primaryQ : Option Query
  comboQs : List Query
  econQ : Option Query
deriving Repr

/-- The orchestration state machine of `POST` after input resolution
(route.ts lines 460–592): validation, primary search, expansion race,
conditional cabin downgrade, response assembly.  A rejection of the primary
search or of `exec_expand_combos` reaches the outer `catch` (500); a
rejection of a candidate search or of the downgrade search is swallowed. -/
def orchestrate (env : Env) (p : Params) : PostOut :=
  let ret1 := ensureReturnAfterDepart p.depart p.ret
  if p.origin = "" || p.destination = "" || p.depart = "" then
    ⟨.clientErr "Missing origin/destination/depart.", none, [], none⟩
  else
    let q0 := primaryQuery p
    match env.search q0 with
    | .error e => ⟨.serverErr (jsErrString e), some q0, [], none⟩
    | .ok offers0 =>
      let used0 : Used := ⟨p.origin, p.destination, p.depart, ret1, none⟩
      if offers0.isEmpty then
        match env.llmCombos with
        | .error e => ⟨.serverErr (jsErrString e), some q0, [], none⟩
        | .ok _ =>
          match tryCombos env p.adults p.cabin (expandedCandidates env p) with
          | (cqs, some (offers, used)) =>
            ⟨finishResp offers used true, some q0, cqs, none⟩
          | (cqs, none) =>
            if p.cabin = "BUSINESS" then
              let eq := econQuery p
              match env.search eq with
              | .ok econ =>
                if econ.isEmpty then
                  ⟨finishResp [] used0 true, some q0, cqs, some eq⟩
                else
                  ⟨finishResp econ
                      { used0 with note := some "No business found; showing economy." }
                      true,
                    some q0, cqs, some eq⟩
              | .error _ => ⟨finishResp [] used0 true, some q0, cqs, some eq⟩
            else ⟨finishResp [] used0 true, some q0, cqs, none⟩
      else ⟨finishResp offers0 used0 false, some q0, [], none⟩

/-- The whole `POST` handler: input resolution then orchestration; a
rejection while resolving input (the `exec_parse_query` call) reaches the
outer `catch`. -/
def POSTmodel (env : Env) (b : Body) : PostOut :=
  match paramsOfBody env b with
  | .error e => ⟨.serverErr (jsErrString e), none, [], none⟩
  | .ok p => orchestrate env p

/-! ## Statement-side predicates and concrete scenario data -/

/-- Strict order on JS numbers as `<` behaves: false whenever NaN is
involved. -/
def jsNumLt : JsNum → JsNum → Prop
  | .num a, .num b => a < b
  | _, _ => False

instance : DecidableRel jsNumLt := fun a b => by
  cases a <;> cases b <;> simp [jsNumLt] <;> infer_instance

/-- The sort key of `simplifyAndRank`'s comparator. -/
def offerKey (o : SimplifiedOffer) : JsNum × Nat := (o.price, o.stops)

/-- "Price ascending, ties by stop count ascending". -/
def offerKeyLe (a b : SimplifiedOffer) : Prop :=
  jsNumLt a.price b.price ∨ (a.price = b.price ∧ a.stops ≤ b.stops)

/-- The BoundedRacer scenario of the spec: six candidates, #1–#4 never
settle, #5 would fulfil fastest (t = 1) with a truthy result, #6 would
fulfil at t = 2. -/
def raceScenario6 : List (CandBehavior Nat) :=
  [.never, .never, .never, .never, .settle 1 (some 5), .settle 2 (some 6)]

/-- A non-transient upstream failure: an HTTP 404 surfaced by
`searchFlightOffers` (`Offers search failed: ...`). -/
def nontransient404 : JsError :=
  ⟨"Error", "Offers search failed: 404 Not Found", false⟩

/-- A rejected `fetch` after an abort: `name = "AbortError"`. -/
def abortRejection : JsError :=
  ⟨"AbortError", "The user aborted a request.", false⟩

/-- A raw offer whose price is present but not numeric. -/
def malformedPriceOffer : RawOffer := ⟨some ⟨some "abc"⟩, none, none⟩

/-- A generic upstream 502 failure: neither an auth error, nor a
validation error, nor transient. -/
def upstream502 : JsError :=
  ⟨"Error", "Offers search failed: 502 Bad Gateway", false⟩

/-- Environment in which every upstream search fails with a 502. -/
def envAllFail : Env :=
  { search := fun _ => .error upstream502
    llmCombos := .ok []
    parse := .ok ⟨none, none, none, none, none, none⟩
    today := 0 }

/-- Raw combo candidates exercising every validation rule (with "today" =
2025-06-01 = epoch day 20240): one valid lower-case entry, a past depart,
a return before its own depart, a missing origin, an unparseable depart. -/
def c5RawList : List RawCombo :=
  [⟨"jfk ", "lax", "2025-06-02", none⟩,
   ⟨"JFK", "LAX", "2025-05-20", none⟩,
   ⟨"JFK", "LAX", "2025-06-03", some "2025-06-01"⟩,
   ⟨"", "LAX", "2025-06-02", none⟩,
   ⟨"JFK", "LAX", "garbage", none⟩]

/-- A structured request body: JFK→LAX on 2025-06-01, business cabin. -/
def bodyJfkLax : Body :=
  { query := none
    fromCode := some "JFK"
    toCode := some "LAX"
    depart := some "2025-06-01"
    ret := none
    adults := some 1
    cabin := some "C" }

/-- The same structured body with the cabin field set to `"constructor"`:
not one of the letters M/W/C/F, but a key that hits the prototype chain of
the `cabinMap` object literal. -/
def bodyCabinConstructor : Body :=
  { query := none
    fromCode := some "JFK"
    toCode := some "LAX"
    depart := some "2025-06-01"
    ret := none
    adults := some 1
    cabin := some "constructor" }

/-- The `Params` the structured body above resolves to. -/
def paramsJfkLaxBusiness : Params :=
  { origin := "JFK", destination := "LAX", depart := "2025-06-01",
    ret := none, adults := 1, cabin := "BUSINESS" }

/-- A `TimeoutError` as `withTimeout` raises it after 8000 ms. -/
def timeout8000 : JsError := timeoutError 8000

/-- Environment where the primary search returns no offers and every other
search (expansion candidates, cabin downgrade) fails with a timeout. -/
def envPrimaryEmptyRestFail : Env :=
  { search := fun q => if q.maxResults = 50 then .ok [] else .error timeout8000
    llmCombos := .ok [⟨"JFK", "LAX", "2025-06-02", none⟩]
    parse := .ok ⟨none, none, none, none, none, none⟩
    today := 20240 }

/-- A well-formed economy offer. -/
def econOffer : RawOffer :=
  ⟨some ⟨some "199.99"⟩,
    some [⟨some "PT5H", some [⟨some "JFK", some "LAX", some "AA", some "100"⟩]⟩],
    some "E1"⟩

/-- Environment where primary and expansion find nothing and only the
cabin-downgrade query (cabin `ECONOMY`, `max 20`) returns offers. -/
def envDowngrade : Env :=
  { search := fun q =>
      if q.cabin = "ECONOMY" && q.maxResults = 20 then .ok [econOffer] else .ok []
    llmCombos := .ok []
    parse := .ok ⟨none, none, none, none, none, none⟩
    today := 20240 }

/-! # Theorems -/

/-! ## C1 — `runWithLimit` with limit 4 and four never-settling leaders -/

/-- C1 (counterexample).  In the claimed scenario (six candidates,
`limit = 4`, candidates #1–#4 never settle, #5 would fulfil fastest and
successfully) `runWithLimit` does **not** return candidate #5's result —
its promise never settles at all — and candidate #5 (index 4) is never
even started: the four never-settling leaders hold the whole concurrency
budget forever. -/
theorem c1_counterexample :
    raceValue (runWithLimitModel raceScenario6 4) = none ∧
      4 ∉ raceStarted (runWithLimitModel raceScenario6 4) := by
  decide

/-- C1 (amended).  Racing the six candidates with `limit = 4`: exactly
candidates #1–#4 (indices 0–3) are started — so neither #5 nor #6 ever
starts — at most 4 operations are ever in flight, and the race hangs
(no result is produced). -/
theorem c1_race_limit4_hangs :
    runWithLimitModel raceScenario6 4 = .hung ⟨[0, 1, 2, 3], 4⟩ := by
  decide

/-! ## C3 — which `withRetry` failures are retried -/

/-- C3 (counterexample).  The route-local `withRetry` (route.ts lines
82–96) has no transient-failure test: an operation failing with a
non-transient HTTP 404 error on every attempt is still invoked twice with
`attempts = 2`, consuming the remaining attempt instead of propagating
immediately. -/
theorem c3_counterexample :
    isTransient nontransient404 = false ∧
      Route.withRetry (fun _ => (.error nontransient404 : Except JsError Nat)) 2 8000
        = (.error nontransient404, 2) := by
  decide

/-- C3 (amended).  The utility `withRetry` (`unnamed/part_004` lines
63–87) does implement the transient-only policy: when the first attempt
fails with a non-transient error, that error propagates immediately after
exactly one invocation, whatever the remaining attempt budget. -/
theorem c3_util_nontransient_immediate (op : Nat → Except JsError α)
    (attempts ms : Nat) (e : JsError) (hatt : 1 ≤ attempts)
    (h0 : op 0 = .error e) (htr : isTransient e = false) :
    Utils.withRetry op attempts ms = (.error e, 1) := by
  obtain ⟨r, rfl⟩ : ∃ r, attempts = r + 1 := ⟨attempts - 1, by omega⟩
  have hname : e.name ≠ "AbortError" := by
    intro hc
    simp [isTransient, hc] at htr
  unfold Utils.withRetry Utils.withRetryGo Utils.withTimeout
  rw [h0]
  simp [hname, htr]

/-- C3 (witness). -/
theorem c3_util_nontransient_immediate_witness :
    Utils.withRetry (fun _ => (.error nontransient404 : Except JsError Nat)) 2 8000
      = (.error nontransient404, 1) :=
  c3_util_nontransient_immediate _ 2 8000 nontransient404 (by decide) rfl (by decide)

/-! ## C4 — always-timing-out operation, `attempts = 2` -/

/-- C4.  An operation that times out on every attempt (each attempt's
settlement is an abort rejection, which `withTimeout` converts to
`TimeoutError`) under `withRetry` with `attempts = 2` is invoked exactly
twice, and the error finally thrown is the `TimeoutError`. -/
theorem c4_timeout_retry_twice (op : Nat → Except JsError α) (ms : Nat)
    (h : ∀ i, ∃ e, op i = .error e ∧ e.name = "AbortError") :
    Utils.withRetry op 2 ms = (.error (timeoutError ms), 2) := by
  obtain ⟨e0, h0, hn0⟩ := h 0
  obtain ⟨e1, h1, hn1⟩ := h 1
  unfold Utils.withRetry Utils.withRetryGo Utils.withRetryGo Utils.withTimeout
  rw [h0, h1]
  simp [hn0, hn1, isTransient, timeoutError]

/-- C4 (witness). -/
theorem c4_timeout_retry_twice_witness :
    Utils.withRetry (fun _ => (.error abortRejection : Except JsError Nat)) 2 10000
      = (.error (timeoutError 10000), 2) :=
  c4_timeout_retry_twice _ 10000 (fun _ => ⟨abortRejection, rfl, rfl⟩)

/-! ## Helper lemmas: characterizing the two duration regex scans -/

theorem char_ne_of_digit {c d : Char} (hc : c.isDigit = true)
    (hd : d.isDigit = false) : c ≠ d := by
  intro h
  rw [h, hd] at hc
  cases hc

theorem span_digits_append (ds r : List Char) (hds : ∀ c ∈ ds, c.isDigit)
    (hr : ∀ c, r.head? = some c → c.isDigit = false) :
    (ds ++ r).span Char.isDigit = (ds, r) := by
  rw [List.span_eq_take_drop, List.takeWhile_append_of_pos hds,
    List.dropWhile_append_of_pos hds]
  cases r with
  | nil => simp
  | cons c t => simp [List.takeWhile_cons, List.dropWhile_cons, hr c rfl]

theorem execPTH_cons (c : Char) (cs : List Char) :
    execPTH (c :: cs) =
      match tryPTH (c :: cs) with
      | some d => some d
      | none => execPTH cs := rfl

theorem tryPTH_none_of_ne_P {c : Char} (cs : List Char) (h : c ≠ 'P') :
    tryPTH (c :: cs) = none := by
  cases cs with
  | nil => rfl
  | cons c2 rest => simp [tryPTH, h]

theorem execPTH_skip_of_ne_P {c : Char} (cs : List Char) (h : c ≠ 'P') :
    execPTH (c :: cs) = execPTH cs := by
  rw [execPTH_cons, tryPTH_none_of_ne_P cs h]

theorem execPTH_skip_digits (ds cs : List Char) (hds : ∀ c ∈ ds, c.isDigit) :
    execPTH (ds ++ cs) = execPTH cs := by
  induction ds with
  | nil => rfl
  | cons d ds ih =>
    rw [List.cons_append,
      execPTH_skip_of_ne_P _ (char_ne_of_digit (hds d (by simp)) (by decide)),
      ih (fun c hc => hds c (by simp [hc]))]

theorem tryPTH_PT (rest : List Char) :
    tryPTH ('P' :: 'T' :: rest) =
      (if !(rest.span Char.isDigit).1.isEmpty
          && ((rest.span Char.isDigit).2.head? = some 'H' : Bool)
        then some (rest.span Char.isDigit).1 else none) := rfl

theorem execPTH_found (hd r : List Char) (hne : hd ≠ [])
    (hds : ∀ c ∈ hd, c.isDigit) :
    execPTH ('P' :: 'T' :: (hd ++ 'H' :: r)) = some hd := by
  have hspan : (hd ++ 'H' :: r).span Char.isDigit = (hd, 'H' :: r) :=
    span_digits_append hd _ hds
      (by intro c hc; injection hc with hc; rw [← hc]; decide)
  rcases hd with _ | ⟨d, ds⟩
  · exact absurd rfl hne
  · rw [execPTH_cons, tryPTH_PT, hspan]
    simp

theorem execPTH_no_H (md : List Char) (hds : ∀ c ∈ md, c.isDigit) :
    execPTH ('P' :: 'T' :: (md ++ ['M'])) = none := by
  have hspan : (md ++ ['M']).span Char.isDigit = (md, ['M']) :=
    span_digits_append md _ hds
      (by intro c hc; injection hc with hc; rw [← hc]; decide)
  rw [execPTH_cons, tryPTH_PT, hspan]
  have h2 : ((['M'] : List Char).head? = some 'H') = False := by
    simp only [List.head?_cons, Option.some.injEq]
    simp only [eq_iff_iff, iff_false]
    decide
  simp only [h2, decide_False, Bool.and_false]
  rw [execPTH_skip_of_ne_P _ (by decide), execPTH_skip_digits md _ hds,
    execPTH_skip_of_ne_P _ (by decide)]
  rfl

theorem execDigitsM_cons (c : Char) (cs : List Char) :
    execDigitsM (c :: cs) =
      match tryDigitsM (c :: cs) with
      | some d => some d
      | none => execDigitsM cs := rfl

theorem tryDigitsM_none_of_head_not_digit {c : Char} (cs : List Char)
    (h : c.isDigit = false) : tryDigitsM (c :: cs) = none := by
  unfold tryDigitsM
  rw [List.span_eq_take_drop]
  simp [List.takeWhile_cons, h]

theorem execDigitsM_skip_head (c : Char) (r : List Char)
    (hc : c.isDigit = false) :
    execDigitsM (c :: r) = execDigitsM r := by
  rw [execDigitsM_cons, tryDigitsM_none_of_head_not_digit r hc]

theorem execDigitsM_skip (ds : List Char) (c : Char) (r : List Char)
    (hds : ∀ x ∈ ds, x.isDigit) (hc : c.isDigit = false) (hm : c ≠ 'M') :
    execDigitsM (ds ++ c :: r) = execDigitsM r := by
  induction ds with
  | nil =>
    rw [List.nil_append, execDigitsM_cons, tryDigitsM_none_of_head_not_digit r hc]
  | cons d ds ih =>
    rw [List.cons_append, execDigitsM_cons]
    have hspan : (d :: (ds ++ c :: r)).span Char.isDigit = (d :: ds, c :: r) := by
      have h := span_digits_append (d :: ds) (c :: r) hds
        (by intro x hx; injection hx with hx; rw [← hx]; exact hc)
      simpa using h
    have htry : tryDigitsM (d :: (ds ++ c :: r)) = none := by
      unfold tryDigitsM
      rw [hspan]
      simp [hm]
    rw [htry]
    exact ih (fun x hx => hds x (List.mem_cons_of_mem _ hx))

theorem execDigitsM_found (md r : List Char) (hne : md ≠ [])
    (hds : ∀ c ∈ md, c.isDigit) :
    execDigitsM (md ++ 'M' :: r) = some md := by
  cases md with
  | nil => cases hne rfl
  | cons d ds =>
    rw [List.cons_append, execDigitsM_cons]
    have hspan : (d :: (ds ++ 'M' :: r)).span Char.isDigit
        = (d :: ds, 'M' :: r) := by
      have h := span_digits_append (d :: ds) ('M' :: r) hds
        (by intro x hx; injection hx with hx; rw [← hx]; decide)
      simpa using h
    have htry : tryDigitsM (d :: (ds ++ 'M' :: r)) = some (d :: ds) := by
      unfold tryDigitsM
      rw [hspan]
      simp
    rw [htry]

theorem string_mk_append (a b : List Char) :
    String.mk a ++ String.mk b = String.mk (a ++ b) := rfl

/-! ## C7 — rendering of the first itinerary's ISO-8601 duration -/

/-- C7 (counterexample).  A duration string that starts with `PT` but is
not in the `PT[n]H[n]M` family is **not** rendered as the empty string:
both regexes fail, the rendered template is falsy, and the `|| iso`
fallback returns the original string verbatim. -/
theorem c7_counterexample :
    isoToReadableDuration (some "PTXYZ") = "PTXYZ" ∧ ("PTXYZ" : String) ≠ "" := by
  decide

/-- C7 (amended).  The rendered duration text is the hours/minutes
rendering of the duration: `""` when the duration is absent or not
`PT`-prefixed (e.g. `"P1DT"`); `"{h}h {m}m"`, `"{h}h"`, `"{m}m"` for the
`PT{h}H{m}M`, `PT{h}H`, `PT{m}M` shapes; but for a `PT`-prefixed string on
which both component regexes fail, the *original string* is returned
verbatim (the `|| iso` fallback) rather than the empty string.  The
function is total — it never throws. -/
theorem c7_duration_rendering :
    (isoToReadableDuration none = "") ∧
    (∀ s : String, (∀ rest, s.toList ≠ 'P' :: 'T' :: rest) →
      isoToReadableDuration (some s) = "") ∧
    (∀ hd md : List Char, hd ≠ [] → md ≠ [] →
      (∀ c ∈ hd, c.isDigit) → (∀ c ∈ md, c.isDigit) →
      isoToReadableDuration
          (some (String.mk ('P' :: 'T' :: (hd ++ 'H' :: (md ++ ['M']))))) =
        String.mk (hd ++ 'h' :: ' ' :: (md ++ ['m']))) ∧
    (∀ hd : List Char, hd ≠ [] → (∀ c ∈ hd, c.isDigit) →
      isoToReadableDuration (some (String.mk ('P' :: 'T' :: (hd ++ ['H'])))) =
        String.mk (hd ++ ['h'])) ∧
    (∀ md : List Char, md ≠ [] → (∀ c ∈ md, c.isDigit) →
      isoToReadableDuration (some (String.mk ('P' :: 'T' :: (md ++ ['M'])))) =
        String.mk (md ++ ['m'])) ∧
    (∀ rest : List Char, execPTH ('P' :: 'T' :: rest) = none →
      execDigitsM ('P' :: 'T' :: rest) = none →
      isoToReadableDuration (some (String.mk ('P' :: 'T' :: rest))) =
        String.mk ('P' :: 'T' :: rest)) := by
  refine ⟨rfl, ?_, ?_, ?_, ?_, ?_⟩
  · intro s hs
    rcases hl : s.data with _ | ⟨c1, _ | ⟨c2, rest⟩⟩
    · simp [isoToReadableDuration, String.toList, hl]
    · simp [isoToReadableDuration, String.toList, hl]
    · simp only [isoToReadableDuration, String.toList, hl]
      rw [if_neg]
      rintro ⟨rfl, rfl⟩
      exact hs rest hl
  · intro hd md hhd hmd hdd hmdd
    have hh : execPTH ('P' :: 'T' :: (hd ++ 'H' :: (md ++ ['M']))) = some hd :=
      execPTH_found hd _ hhd hdd
    have hm : execDigitsM ('P' :: 'T' :: (hd ++ 'H' :: (md ++ ['M'])))
        = some md := by
      rw [execDigitsM_skip_head 'P' _ (by decide),
        execDigitsM_skip_head 'T' _ (by decide),
        execDigitsM_skip hd 'H' _ hdd (by decide) (by decide),
        show (md ++ ['M']) = md ++ 'M' :: [] from rfl,
        execDigitsM_found md [] hmd hmdd]
    simp only [isoToReadableDuration, String.toList, hh, hm, List.asString,
      Option.isSome_some, Bool.and_self, eq_self_iff_true, and_self, if_true]
    have hrend : (String.mk hd ++ "h") ++ " " ++ (String.mk md ++ "m")
        = String.mk (hd ++ 'h' :: ' ' :: (md ++ ['m'])) := by
      rw [show ("h" : String) = String.mk ['h'] from rfl,
        show (" " : String) = String.mk [' '] from rfl,
        show ("m" : String) = String.mk ['m'] from rfl,
        string_mk_append, string_mk_append, string_mk_append, string_mk_append]
      simp
    rw [hrend, if_neg]
    intro hc
    have hdata : (hd ++ 'h' :: ' ' :: (md ++ ['m'])) = [] := by
      have h2 := congrArg String.data hc
      simp at h2
    rcases hd with _ | ⟨d, ds⟩
    · exact hhd rfl
    · simp at hdata
  · intro hd hhd hdd
    have hh : execPTH ('P' :: 'T' :: (hd ++ ['H'])) = some hd := by
      have h := execPTH_found hd [] hhd hdd
      simpa using h
    have hm : execDigitsM ('P' :: 'T' :: (hd ++ ['H'])) = none := by
      rw [execDigitsM_skip_head 'P' _ (by decide),
        execDigitsM_skip_head 'T' _ (by decide),
        show (hd ++ ['H']) = hd ++ 'H' :: [] from rfl,
        execDigitsM_skip hd 'H' [] hdd (by decide) (by decide)]
      rfl
    simp only [isoToReadableDuration, String.toList, hh, hm, List.asString,
      Option.isSome_some, Option.isSome_none, Bool.and_false,
      eq_self_iff_true, and_self, if_true, Bool.false_eq_true, if_false]
    have hrend : (String.mk hd ++ "h") ++ "" ++ "" = String.mk (hd ++ ['h']) := by
      rw [show ("h" : String) = String.mk ['h'] from rfl,
        show ("" : String) = String.mk [] from rfl,
        string_mk_append, string_mk_append, string_mk_append]
      simp
    rw [hrend, if_neg]
    intro hc
    have hdata : (hd ++ ['h']) = [] := by
      have h2 := congrArg String.data hc
      simp at h2
    simp at hdata
  · intro md hmd hmdd
    have hh : execPTH ('P' :: 'T' :: (md ++ ['M'])) = none :=
      execPTH_no_H md hmdd
    have hm : execDigitsM ('P' :: 'T' :: (md ++ ['M'])) = some md := by
      rw [execDigitsM_skip_head 'P' _ (by decide),
        execDigitsM_skip_head 'T' _ (by decide),
        show (md ++ ['M']) = md ++ 'M' :: [] from rfl,
        execDigitsM_found md [] hmd hmdd]
    simp only [isoToReadableDuration, String.toList, hh, hm, List.asString,
      Option.isSome_some, Option.isSome_none, Bool.false_and,
      eq_self_iff_true, and_self, if_true, Bool.false_eq_true, if_false]
    have hrend : ("" : String) ++ "" ++ (String.mk md ++ "m")
        = String.mk (md ++ ['m']) := by
      rw [show ("m" : String) = String.mk ['m'] from rfl,
        show ("" : String) = String.mk [] from rfl,
        string_mk_append, string_mk_append, string_mk_append]
      simp
    rw [hrend, if_neg]
    intro hc
    have hdata : (md ++ ['m']) = [] := by
      have h2 := congrArg String.data hc
      simp at h2
    simp at hdata
  · intro rest hh hm
    simp only [isoToReadableDuration, String.toList, hh, hm]
    simp

/-- C7 (witness): `"PT5H30M"` renders as `"5h 30m"`. -/
theorem c7_duration_rendering_witness :
    isoToReadableDuration (some "PT5H30M") = "5h 30m" := by
  have h := c7_duration_rendering.2.2.1 ['5'] ['3', '0']
    (by decide) (by decide) (by decide) (by decide)
  exact h

/-! ## C9 — ranker totality on malformed offers -/

/-- C9 (counterexample).  An offer whose `price.grandTotal` is the
non-numeric string `"abc"` is simplified to price NaN
(`Number("abc" || 0) = Number("abc") = NaN`), not to price 0 as claimed. -/
theorem c9_counterexample :
    (simplifyOffer malformedPriceOffer).price = JsNum.nan ∧
      JsNum.nan ≠ JsNum.num 0 := by
  decide

/-- C9 (amended).  The ranker's per-offer mapping is total on malformed
offers and never throws: an *absent or empty* price yields price 0 (an
unparseable non-empty price yields NaN, per the counterexample); an offer
with no itineraries, an empty itinerary list, or a first itinerary with no
(or an empty) segment list yields 0 stops, an empty route string and an
empty carriers set. -/
theorem c9_ranker_total_malformed (o : RawOffer) :
    (o.price.bind RawPriceObj.grandTotal = none ∨
        o.price.bind RawPriceObj.grandTotal = some "" →
      (simplifyOffer o).price = JsNum.num 0) ∧
    (o.itineraries = none ∨ o.itineraries = some [] →
      (simplifyOffer o).stops = 0 ∧ (simplifyOffer o).route = "" ∧
        (simplifyOffer o).carriers = []) ∧
    (∀ it rest, o.itineraries = some (it :: rest) →
      it.segments = none ∨ it.segments = some [] →
      (simplifyOffer o).stops = 0 ∧ (simplifyOffer o).route = "" ∧
        (simplifyOffer o).carriers = []) := by
  refine ⟨?_, ?_, ?_⟩
  · intro hp
    rcases hp with hp | hp <;>
      simp [simplifyOffer, hp, jsNumberOrZero]
  · intro hi
    rcases hi with hi | hi <;>
      simp [simplifyOffer, hi, jsSetOfList, String.intercalate]
  · intro it rest hi hs
    rcases hs with hs | hs <;>
      simp [simplifyOffer, hi, hs, jsSetOfList, String.intercalate]

/-- C9 (witness): an offer with an absent price object and an itinerary
with no segment list. -/
theorem c9_ranker_total_malformed_witness :
    (simplifyOffer ⟨none, some [⟨some "PT5H", none⟩], some "X1"⟩).price = JsNum.num 0 ∧
      (simplifyOffer ⟨none, some [⟨some "PT5H", none⟩], some "X1"⟩).stops = 0 ∧
      (simplifyOffer ⟨none, some [⟨some "PT5H", none⟩], some "X1"⟩).route = "" ∧
      (simplifyOffer ⟨none, some [⟨some "PT5H", none⟩], some "X1"⟩).carriers = [] := by
  have h := c9_ranker_total_malformed ⟨none, some [⟨some "PT5H", none⟩], some "X1"⟩
  exact ⟨h.1 (Or.inl rfl), h.2.2 _ _ rfl (Or.inl rfl)⟩

/-! ## C5 — combo validation invariants -/

/-- C5.  Every candidate surviving combo validation (the shared pipeline of
`llmExpandCombos`, cap 12, and `exec_expand_combos`, cap 8) has a parseable
depart date that is not before today's UTC date, and a return date — when
present — that parses and is not before its own depart; every survivor is
exactly the normalization (uppercase/trim/10-char truncation) of some raw
input candidate, never date-repaired; and the surviving list is capped at
8–12 entries. -/
theorem c5_combo_validation (cap : Nat) (today : Int) (raw : List RawCombo)
    (hcap : cap = 8 ∨ cap = 12) :
    (validateCombos cap today raw).length ≤ 12 ∧
    ∀ c ∈ validateCombos cap today raw,
      (∃ d, jsDateDays c.depart = some d ∧ today ≤ d ∧
        ∀ r ∈ c.ret, ∃ rd, jsDateDays r = some rd ∧ d ≤ rd) ∧
      ∃ c₀ ∈ raw, c = normalizeCombo c₀ := by
  constructor
  · have h1 : (validateCombos cap today raw).length ≤ cap := by
      simp [validateCombos]
    rcases hcap with rfl | rfl <;> omega
  · intro c hc
    have hc' : c ∈ (raw.map normalizeCombo).filter (comboValid today) :=
      List.mem_of_mem_take hc
    have hval : comboValid today c = true := List.of_mem_filter hc'
    have hmem : c ∈ raw.map normalizeCombo := List.mem_of_mem_filter hc'
    constructor
    · unfold comboValid at hval
      cases hd : jsDateDays c.depart with
      | none =>
        rw [hd] at hval
        simp at hval
      | some d =>
        rw [hd] at hval
        simp only [Bool.and_eq_true, decide_eq_true_eq] at hval
        obtain ⟨⟨⟨-, -⟩, -⟩, htoday, hret⟩ := hval
        refine ⟨d, rfl, htoday, ?_⟩
        intro r hr
        cases hcr : c.ret with
        | none => rw [hcr] at hr; cases hr
        | some r' =>
          rw [hcr] at hr
          cases hr
          simp only [hcr] at hret
          cases hrd : jsDateDays r with
          | none =>
            simp only [hrd] at hret
            cases hret
          | some rd =>
            simp only [hrd, decide_eq_true_eq] at hret
            exact ⟨rd, rfl, hret⟩
    · obtain ⟨c₀, hc₀, hc₀eq⟩ := List.mem_map.1 hmem
      exact ⟨c₀, hc₀, hc₀eq.symm⟩

/-- C5 (witness): validation over five raw candidates, each exercising one
rule, with today = 2025-06-01 (epoch day 20240). -/
theorem c5_combo_validation_witness :
    (validateCombos 8 20240 c5RawList).length ≤ 12 ∧
    ∀ c ∈ validateCombos 8 20240 c5RawList,
      (∃ d, jsDateDays c.depart = some d ∧ 20240 ≤ d ∧
        ∀ r ∈ c.ret, ∃ rd, jsDateDays r = some rd ∧ d ≤ rd) ∧
      ∃ c₀ ∈ c5RawList, c = normalizeCombo c₀ :=
  c5_combo_validation 8 20240 c5RawList (Or.inl rfl)

/-! ## Helper lemmas: the shape of the `POST` trace -/

theorem tryCombos_cabin (env : Env) (a : Nat) (cb : String) :
    ∀ l q, q ∈ (tryCombos env a cb l).1 → q.cabin = cb := by
  intro l
  induction l with
  | nil => intro q hq; cases hq
  | cons c rest ih =>
    intro q hq
    rcases htc : tryCombos env a cb rest with ⟨qs, r⟩
    unfold tryCombos at hq
    cases hs : env.search (comboQuery a cb c) with
    | error e =>
      simp only [hs, htc, List.mem_cons] at hq
      rcases hq with rfl | hq
      · rfl
      · exact ih q (by rw [htc]; exact hq)
    | ok lofs =>
      simp only [hs, htc] at hq
      cases lofs with
      | nil =>
        simp only [List.isEmpty_nil, if_true, List.mem_cons] at hq
        rcases hq with rfl | hq
        · rfl
        · exact ih q (by rw [htc]; exact hq)
      | cons o os =>
        simp only [List.isEmpty_cons, Bool.false_eq_true, if_false,
          List.mem_singleton] at hq
        subst hq
        rfl

theorem orchestrate_trace (env : Env) (p : Params) :
    ((orchestrate env p).primaryQ = none ∨
      (orchestrate env p).primaryQ = some (primaryQuery p)) ∧
    ((orchestrate env p).comboQs = [] ∨
      (orchestrate env p).comboQs
        = (tryCombos env p.adults p.cabin (expandedCandidates env p)).1) ∧
    ((orchestrate env p).econQ = none ∨
      ((orchestrate env p).econQ = some (econQuery p)
        ∧ p.cabin = "BUSINESS")) := by
  unfold orchestrate
  by_cases hg : (p.origin = "" || p.destination = "" || p.depart = "") = true
  · simp [hg]
  · simp only [hg, if_false]
    cases hs : env.search (primaryQuery p) with
    | error e => simp
    | ok offers0 =>
      cases offers0 with
      | cons o os => simp
      | nil =>
        simp only [List.isEmpty_nil, if_true]
        cases hl : env.llmCombos with
        | error e => simp
        | ok raw =>
          rcases htc : tryCombos env p.adults p.cabin (expandedCandidates env p)
            with ⟨cqs, win⟩
          simp only [htc]
          cases win with
          | some w => simp [htc]
          | none =>
            by_cases hb : p.cabin = "BUSINESS"
            · simp only [hb, if_true]
              cases he : env.search (econQuery p) with
              | error e => simp [htc, hb]
              | ok econ =>
                cases econ with
                | nil => simp [htc, hb]
                | cons o os => simp [htc, hb]
            · simp [hb, htc]

/-! ## C10 — structured-path cabin mapping -/

/-- C10 (counterexample).  The structured-path cabin value
`"constructor"` is not one of the letters M/W/C/F, yet it is **not**
mapped to `ECONOMY`: `cabinMap["constructor"]` hits the prototype chain
and returns the inherited `Object.prototype.constructor` function — a
truthy value, so `|| "ECONOMY"` never fires — and the primary upstream
query is issued with that function (stringified by `URLSearchParams`) as
its `travelClass`. -/
theorem c10_counterexample :
    ("constructor" : String) ∉ (["M", "W", "C", "F"] : List String) ∧
    (POSTmodel envAllFail bodyCabinConstructor).primaryQ =
      some { origin := "JFK", destination := "LAX",
             departDate := "2025-06-01", returnDate := none, adults := 1,
             cabin := "function Object() { [native code] }",
             currency := "USD", maxResults := 50 } ∧
    ("function Object() { [native code] }" : String) ≠ "ECONOMY" := by
  decide

/-- C10 (amended).  In the structured (non-free-text) request path, every
`cabin` value other than the letters `M`, `W`, `C`, `F` **and other than
an `Object.prototype` member name** (`constructor`, `toString`,
`valueOf`, `__proto__`, …, whose inherited truthy values defeat the
`|| "ECONOMY"` default — see the counterexample) — including an absent or
empty value — resolves to `ECONOMY`, and every upstream query the handler
issues (primary and expansion candidates) then carries cabin `ECONOMY`;
the cabin downgrade (which would query `ECONOMY` with cabin `BUSINESS`
requested) is never reached. -/
theorem c10_cabin_default_economy (env : Env) (b : Body) (p : Params)
    (s : String) (hq : jsTruthy b.query = false)
    (hp : paramsOfBody env b = .ok p)
    (hc : b.cabin = none ∨
      (b.cabin = some s ∧ s ∉ (["M", "W", "C", "F"] : List String)
        ∧ s ∉ objectProtoKeys)) :
    p.cabin = "ECONOMY" ∧
    (∀ q, (POSTmodel env b).primaryQ = some q → q.cabin = "ECONOMY") ∧
    (∀ q ∈ (POSTmodel env b).comboQs, q.cabin = "ECONOMY") ∧
    (POSTmodel env b).econQ = none := by
  have hpc : p.cabin = "ECONOMY" := by
    unfold paramsOfBody at hp
    simp only [hq, Bool.false_eq_true, if_false, Except.ok.injEq] at hp
    rcases hc with hcn | ⟨hcs, hns, hnp⟩
    · rw [hcn] at hp
      rw [← hp]
      rfl
    · rw [hcs] at hp
      simp only [List.mem_cons, List.mem_singleton, not_or] at hns
      obtain ⟨hm, hw, hcc, hf⟩ := hns
      by_cases hse : s = ""
      · rw [← hp]
        simp [hse, cabinMapLookup]
      · rw [← hp]
        simp [hse, cabinMapLookup, hm, hw, hcc, hf, hnp]
  have hPOST : POSTmodel env b = orchestrate env p := by
    unfold POSTmodel
    rw [hp]
  obtain ⟨hpq, hcq, heq⟩ := orchestrate_trace env p
  rw [hPOST]
  refine ⟨hpc, ?_, ?_, ?_⟩
  · intro q hq2
    rcases hpq with h | h
    · rw [h] at hq2; cases hq2
    · rw [h] at hq2
      injection hq2 with hq2
      rw [← hq2]
      exact hpc
  · intro q hq2
    rcases hcq with h | h
    · rw [h] at hq2; cases hq2
    · rw [h] at hq2
      have hcab := tryCombos_cabin env p.adults p.cabin _ q hq2
      rw [hcab, hpc]
  · rcases heq with h | ⟨h1, h2⟩
    · exact h
    · rw [hpc] at h2
      exact absurd h2 (by decide)

/-- C10 (witness): a structured body with the unrecognized cabin value
`"X"` and an environment whose searches all fail. -/
theorem c10_cabin_default_economy_witness :
    ({ origin := "JFK", destination := "LAX", depart := "2025-06-01",
       ret := none, adults := 1, cabin := "ECONOMY" } : Params).cabin
        = "ECONOMY" ∧
    (∀ q, (POSTmodel envAllFail { bodyJfkLax with cabin := some "X" }).primaryQ
        = some q → q.cabin = "ECONOMY") ∧
    (∀ q ∈ (POSTmodel envAllFail { bodyJfkLax with cabin := some "X" }).comboQs,
      q.cabin = "ECONOMY") ∧
    (POSTmodel envAllFail { bodyJfkLax with cabin := some "X" }).econQ = none :=
  c10_cabin_default_economy envAllFail { bodyJfkLax with cabin := some "X" }
    { origin := "JFK", destination := "LAX", depart := "2025-06-01",
      ret := none, adults := 1, cabin := "ECONOMY" } "X"
    rfl (by decide) (Or.inr ⟨rfl, by decide, by decide⟩)

/-! ## Helper lemmas for the expansion loop -/

theorem tryCombos_none_of_all_error (env : Env) (a : Nat) (cb : String) :
    ∀ l, (∀ c ∈ l, ∃ e, env.search (comboQuery a cb c) = .error e) →
      (tryCombos env a cb l).2 = none := by
  intro l
  induction l with
  | nil => intro _; rfl
  | cons c rest ih =>
    intro h
    obtain ⟨e, he⟩ := h c (by simp)
    rcases htc : tryCombos env a cb rest with ⟨qs, r⟩
    unfold tryCombos
    simp only [he, htc]
    have hr := ih (fun c' hc' => h c' (by simp [hc']))
    rw [htc] at hr
    exact hr

theorem simplifyAndRank_ne_nil {l : List RawOffer} (h : l ≠ []) :
    simplifyAndRank l ≠ [] := by
  unfold simplifyAndRank
  intro hc
  have hlen := congrArg List.length hc
  simp only [List.length_take, List.length_mergeSort, List.length_map,
    List.length_nil] at hlen
  rcases Nat.min_eq_zero_iff.mp hlen with h12 | h0
  · omega
  · exact h (List.eq_nil_of_length_eq_zero h0)

/-! ## C2 — which phase failures surface as request-level errors -/

/-- C2 (counterexample).  A Primary-phase failure that is neither an
`AuthError` nor a `ValidationError` — a generic upstream 502 — is **not**
absorbed as a miss: the route's `withRetry` rethrows it, the handler's
outer `catch` turns it into a request-level 500 error (`serverErr`), and
no structured empty-results outcome is produced. -/
theorem c2_counterexample :
    (POSTmodel envAllFail bodyJfkLax).resp
      = Resp.serverErr "Offers search failed: 502 Bad Gateway" := by
  decide

/-- C2 (amended).  Once the Primary search completes without raising (here:
returns no offers), a failure of **every** individual Expanding candidate
search and of the Downgrading search — of any error kind — is absorbed as
a miss: the state machine advances and the caller receives the structured
empty-results outcome with the explanatory note, never a raised error.  (A
failure of the Primary search itself, or of the combo-proposal call,
instead surfaces as a request-level 500 error, per the counterexample.) -/
theorem c2_phase_failures_absorbed (env : Env) (b : Body) (p : Params)
    (raws : List RawCombo)
    (hp : paramsOfBody env b = .ok p)
    (ho : p.origin ≠ "") (hd : p.destination ≠ "") (hdep : p.depart ≠ "")
    (hprim : env.search (primaryQuery p) = .ok [])
    (hllm : env.llmCombos = .ok raws)
    (hfail : ∀ q : Query, q.maxResults ≠ 50 → ∃ e, env.search q = .error e) :
    (POSTmodel env b).resp =
      .ok [] ⟨p.origin, p.destination, p.depart,
          ensureReturnAfterDepart p.depart p.ret, none⟩
        true (some noOffersExpandedNote) := by
  have hPOST : POSTmodel env b = orchestrate env p := by
    unfold POSTmodel
    rw [hp]
  rw [hPOST]
  unfold orchestrate
  have hg : (p.origin = "" || p.destination = "" || p.depart = "") = false := by
    simp [ho, hd, hdep]
  simp only [hg, Bool.false_eq_true, if_false, hprim, List.isEmpty_nil,
    if_true, hllm]
  have hmiss : ∀ c ∈ expandedCandidates env p,
      ∃ e, env.search (comboQuery p.adults p.cabin c) = .error e :=
    fun c _ => hfail _ (by simp [comboQuery])
  have htc0 := tryCombos_none_of_all_error env p.adults p.cabin
    (expandedCandidates env p) hmiss
  rcases htc : tryCombos env p.adults p.cabin (expandedCandidates env p)
    with ⟨cqs, win⟩
  rw [htc] at htc0
  have hwin : win = none := htc0
  subst hwin
  simp only [htc]
  by_cases hb : p.cabin = "BUSINESS"
  · simp only [hb, if_true]
    obtain ⟨e, he⟩ := hfail (econQuery p) (by simp [econQuery])
    simp only [he]
    rfl
  · simp only [hb, if_false]
    rfl

/-- C2 (witness): primary empty, one expansion candidate timing out, cabin
downgrade timing out — the caller still receives the structured
empty-results outcome. -/
theorem c2_phase_failures_absorbed_witness :
    (POSTmodel envPrimaryEmptyRestFail bodyJfkLax).resp =
      .ok [] ⟨"JFK", "LAX", "2025-06-01",
          ensureReturnAfterDepart "2025-06-01" none, none⟩
        true (some noOffersExpandedNote) :=
  c2_phase_failures_absorbed envPrimaryEmptyRestFail bodyJfkLax
    paramsJfkLaxBusiness [⟨"JFK", "LAX", "2025-06-02", none⟩]
    (by decide) (by decide) (by decide) (by decide) (by decide) (by decide)
    (fun q hq => ⟨timeout8000, by
      show (if q.maxResults = 50 then (.ok [] : Except JsError (List RawOffer))
          else .error timeout8000) = .error timeout8000
      rw [if_neg hq]⟩)

theorem tryCombos_attempted_miss (env : Env) (a : Nat) (cb : String) :
    ∀ l qs, tryCombos env a cb l = (qs, none) →
      ∀ q ∈ qs, env.search q = .ok [] ∨ ∃ e, env.search q = .error e := by
  intro l
  induction l with
  | nil =>
    intro qs h q hq
    injection h with h1 h2
    subst h1
    cases hq
  | cons c rest ih =>
    intro qs h q hq
    rcases htc : tryCombos env a cb rest with ⟨qs', r⟩
    unfold tryCombos at h
    cases hs : env.search (comboQuery a cb c) with
    | error e =>
      simp only [hs, htc] at h
      injection h with h1 h2
      subst h1
      subst h2
      rcases List.mem_cons.mp hq with rfl | hq'
      · exact Or.inr ⟨e, hs⟩
      · exact ih qs' (by rw [htc]) q hq'
    | ok lofs =>
      cases lofs with
      | nil =>
        simp only [hs, htc, List.isEmpty_nil, if_true] at h
        injection h with h1 h2
        subst h1
        subst h2
        rcases List.mem_cons.mp hq with rfl | hq'
        · exact Or.inl hs
        · exact ih qs' (by rw [htc]) q hq'
      | cons o os =>
        simp only [hs, List.isEmpty_cons, Bool.false_eq_true, if_false] at h
        injection h with h1 h2
        cases h2

/-! ## C8 — the ECONOMY cabin-downgrade search -/

/-- C8.  The cabin-downgrade search is attempted only when the primary
search returned no offers, every raced expansion candidate missed (returned
no offers or failed), and the requested cabin is `BUSINESS`; its failures
are swallowed into the structured empty-results outcome; and when it
succeeds the outcome has non-empty results and its `used.note` is the
economy-substitution message — the substitution is never silent. -/
theorem c8_downgrade_conditions (env : Env) (p : Params) :
    ((orchestrate env p).econQ.isSome →
      p.cabin = "BUSINESS" ∧ env.search (primaryQuery p) = .ok [] ∧
      ∀ q ∈ (orchestrate env p).comboQs,
        env.search q = .ok [] ∨ ∃ e, env.search q = .error e) ∧
    (∀ raws : List RawCombo, p.origin ≠ "" → p.destination ≠ "" →
      p.depart ≠ "" →
      env.search (primaryQuery p) = .ok [] → env.llmCombos = .ok raws →
      (tryCombos env p.adults p.cabin (expandedCandidates env p)).2 = none →
      p.cabin = "BUSINESS" →
      ((∀ e, env.search (econQuery p) = .error e →
          (orchestrate env p).resp = .ok []
            ⟨p.origin, p.destination, p.depart,
              ensureReturnAfterDepart p.depart p.ret, none⟩
            true (some noOffersExpandedNote)) ∧
        (∀ l, env.search (econQuery p) = .ok l → l ≠ [] →
          (orchestrate env p).resp = .ok (simplifyAndRank l)
              ⟨p.origin, p.destination, p.depart,
                ensureReturnAfterDepart p.depart p.ret,
                some "No business found; showing economy."⟩
              true none
            ∧ simplifyAndRank l ≠ []))) := by
  constructor
  · unfold orchestrate
    by_cases hg : (p.origin = "" || p.destination = "" || p.depart = "") = true
    · simp [hg]
    · simp only [hg, if_false]
      cases hs : env.search (primaryQuery p) with
      | error e => simp
      | ok offers0 =>
        cases offers0 with
        | cons o os => simp
        | nil =>
          simp only [List.isEmpty_nil, if_true]
          cases hl : env.llmCombos with
          | error e => simp
          | ok raw =>
            rcases htc : tryCombos env p.adults p.cabin (expandedCandidates env p)
              with ⟨cqs, win⟩
            simp only [htc]
            cases win with
            | some w => simp
            | none =>
              by_cases hb : p.cabin = "BUSINESS"
              · simp only [hb, if_true]
                have hmiss := tryCombos_attempted_miss env p.adults p.cabin
                  (expandedCandidates env p) cqs htc
                cases he : env.search (econQuery p) with
                | error e =>
                  refine fun _ => ⟨?_, ?_, hmiss⟩ <;> trivial
                | ok econ =>
                  cases econ with
                  | nil =>
                    simp only [List.isEmpty_nil, if_true]
                    refine fun _ => ⟨?_, ?_, hmiss⟩ <;> trivial
                  | cons o os =>
                    simp only [List.isEmpty_cons, Bool.false_eq_true, if_false]
                    refine fun _ => ⟨?_, ?_, hmiss⟩ <;> trivial
              · simp [hb]
  · intro raws ho hd hdep hprim hllm htry hb
    unfold orchestrate
    have hg : (p.origin = "" || p.destination = "" || p.depart = "") = false := by
      simp [ho, hd, hdep]
    simp only [hg, Bool.false_eq_true, if_false, hprim, List.isEmpty_nil,
      if_true, hllm]
    rcases htc : tryCombos env p.adults p.cabin (expandedCandidates env p)
      with ⟨cqs, win⟩
    rw [htc] at htry
    have hwin : win = none := htry
    subst hwin
    simp only [htc, hb, if_true]
    constructor
    · intro e he
      simp only [he]
      rfl
    · intro l hl hlne
      cases l with
      | nil => exact absurd rfl hlne
      | cons o os =>
        simp only [hl, List.isEmpty_cons, Bool.false_eq_true, if_false]
        exact ⟨rfl, simplifyAndRank_ne_nil hlne⟩

/-- C8 (witness): the spec scenario — JFK→LAX, cabin BUSINESS, primary and
expansion empty, downgrade succeeding with one economy offer. -/
theorem c8_downgrade_conditions_witness :
    (orchestrate envDowngrade paramsJfkLaxBusiness).resp =
        .ok (simplifyAndRank [econOffer])
          ⟨"JFK", "LAX", "2025-06-01",
            ensureReturnAfterDepart "2025-06-01" none,
            some "No business found; showing economy."⟩
          true none
      ∧ simplifyAndRank [econOffer] ≠ [] := by
  have hexp : expandedCandidates envDowngrade paramsJfkLaxBusiness = [] := by
    simp [expandedCandidates, envDowngrade, validateCombos]
  have htry : (tryCombos envDowngrade paramsJfkLaxBusiness.adults
      paramsJfkLaxBusiness.cabin
      (expandedCandidates envDowngrade paramsJfkLaxBusiness)).2 = none := by
    rw [hexp]
    rfl
  exact ((c8_downgrade_conditions envDowngrade paramsJfkLaxBusiness).2 []
    (by decide) (by decide) (by decide) (by decide) (by decide) htry
    (by decide)).2 [econOffer] (by decide) (by decide)

/-! ## Helper lemmas: the ranker's comparator -/

theorem exists_num_of_ne_nan {x : JsNum} (h : x ≠ .nan) : ∃ q, x = .num q := by
  cases x with
  | nan => exact absurd rfl h
  | num q => exact ⟨q, rfl⟩

theorem jsStrictNeq_num (a b : ℚ) :
    jsStrictNeq (.num a) (.num b) = decide (a ≠ b) := rfl

theorem jsSub_num (a b : ℚ) : jsSub (.num a) (.num b) = .num (a - b) := rfl

theorem offerSortLe_nan_left {a b : SimplifiedOffer} (h : a.price = .nan) :
    offerSortLe a b = true := by
  unfold offerSortLe offerComparator
  rw [h]
  cases b.price <;> rfl

theorem offerSortLe_nan_right {a b : SimplifiedOffer} (h : b.price = .nan) :
    offerSortLe a b = true := by
  unfold offerSortLe offerComparator
  rw [h]
  cases a.price <;> rfl

theorem offerSortLe_iff {a b : SimplifiedOffer} {qa qb : ℚ}
    (ha : a.price = .num qa) (hb : b.price = .num qb) :
    offerSortLe a b = true ↔ (qa < qb ∨ (qa = qb ∧ a.stops ≤ b.stops)) := by
  unfold offerSortLe offerComparator
  rw [ha, hb, jsStrictNeq_num]
  by_cases h : qa = qb
  · subst h
    simp only [ne_eq, not_true_eq_false, decide_False, Bool.false_eq_true,
      if_false]
    simp [sub_nonpos, lt_irrefl]
  · have hd : (decide ¬qa = qb) = true := by simp [h]
    rw [hd, if_pos rfl, jsSub_num]
    simp only [decide_eq_true_eq, sub_nonpos]
    constructor
    · intro hle
      exact Or.inl (lt_of_le_of_ne hle h)
    · rintro (hlt | ⟨heq, -⟩)
      · exact le_of_lt hlt
      · exact absurd heq h

theorem offerSortLe_total (a b : SimplifiedOffer) :
    offerSortLe a b || offerSortLe b a := by
  by_cases ha : a.price = .nan
  · rw [offerSortLe_nan_left ha]
    rfl
  · by_cases hb : b.price = .nan
    · rw [offerSortLe_nan_left hb, Bool.or_true]
    · obtain ⟨qa, ha'⟩ := exists_num_of_ne_nan ha
      obtain ⟨qb, hb'⟩ := exists_num_of_ne_nan hb
      rcases lt_trichotomy qa qb with h | h | h
      · rw [(offerSortLe_iff ha' hb').mpr (Or.inl h)]
        rfl
      · subst h
        rcases le_total a.stops b.stops with hs | hs
        · rw [(offerSortLe_iff ha' hb').mpr (Or.inr ⟨rfl, hs⟩)]
          rfl
        · rw [(offerSortLe_iff hb' ha').mpr (Or.inr ⟨rfl, hs⟩), Bool.or_true]
      · rw [(offerSortLe_iff hb' ha').mpr (Or.inl h), Bool.or_true]

theorem offerSortLe_trans_nonNan {a b c : SimplifiedOffer}
    (ha : a.price ≠ .nan) (hb : b.price ≠ .nan) (hc : c.price ≠ .nan) :
    offerSortLe a b = true → offerSortLe b c = true →
      offerSortLe a c = true := by
  obtain ⟨qa, ha'⟩ := exists_num_of_ne_nan ha
  obtain ⟨qb, hb'⟩ := exists_num_of_ne_nan hb
  obtain ⟨qc, hc'⟩ := exists_num_of_ne_nan hc
  intro h1 h2
  rw [offerSortLe_iff ha' hb'] at h1
  rw [offerSortLe_iff hb' hc'] at h2
  rw [offerSortLe_iff ha' hc']
  rcases h1 with h1 | ⟨h1, h1s⟩ <;> rcases h2 with h2 | ⟨h2, h2s⟩
  · exact Or.inl (h1.trans h2)
  · exact Or.inl (h2 ▸ h1)
  · exact Or.inl (h1 ▸ h2)
  · exact Or.inr ⟨h1.trans h2, h1s.trans h2s⟩

theorem offerSortLe_of_key_eq {a b : SimplifiedOffer}
    (h : offerKey a = offerKey b) : offerSortLe a b = true := by
  have h1 : a.price = b.price := congrArg Prod.fst h
  have h2 : a.stops = b.stops := congrArg Prod.snd h
  cases hb : b.price with
  | nan => exact offerSortLe_nan_right hb
  | num q =>
    rw [offerSortLe_iff (h1.trans hb) hb]
    exact Or.inr ⟨rfl, h2.le⟩

theorem offerKeyLe_of_sortLe {a b : SimplifiedOffer}
    (ha : a.price ≠ .nan) (hb : b.price ≠ .nan)
    (h : offerSortLe a b = true) : offerKeyLe a b := by
  obtain ⟨qa, ha'⟩ := exists_num_of_ne_nan ha
  obtain ⟨qb, hb'⟩ := exists_num_of_ne_nan hb
  rw [offerSortLe_iff ha' hb'] at h
  rcases h with h | ⟨h, hs⟩
  · exact Or.inl (by rw [ha', hb']; exact h)
  · exact Or.inr ⟨by rw [ha', hb', h], hs⟩

/-! ## C6 — the ranker sorts stably by (price, stop count), capped at 12 -/

/-- C6.  For every offer list whose parsed prices are numeric (a NaN price
— see C9 — makes the JS comparator inconsistent and the sort order
implementation-defined), `simplifyAndRank`:
(1) returns `min 12 n` entries for `n` input offers;
(2) is sorted by ascending price with ties broken by ascending stop count;
(3) is stable — for every sort key, the output entries with that key are a
prefix of the input entries with that key, in input order;
(4) below the cap, is exactly a permutation of the simplified input. -/
theorem c6_ranker_sorted_stable (offers : List RawOffer)
    (h : ∀ o ∈ offers, (simplifyOffer o).price ≠ JsNum.nan) :
    (simplifyAndRank offers).length = min 12 offers.length ∧
    (simplifyAndRank offers).Pairwise offerKeyLe ∧
    (∀ k : JsNum × Nat,
      (simplifyAndRank offers).filter (fun o => decide (offerKey o = k)) <+:
        (offers.map simplifyOffer).filter (fun o => decide (offerKey o = k))) ∧
    (offers.length ≤ 12 →
      List.Perm (simplifyAndRank offers) (offers.map simplifyOffer)) := by
  have hmem : ∀ o ∈ offers.map simplifyOffer, o.price ≠ JsNum.nan := by
    intro o ho
    obtain ⟨x, hx, rfl⟩ := List.mem_map.1 ho
    exact h x hx
  have trans' : ∀ x y z : {o // o ∈ offers.map simplifyOffer},
      offerSortLe x.1 y.1 → offerSortLe y.1 z.1 → offerSortLe x.1 z.1 :=
    fun x y z hxy hyz =>
      offerSortLe_trans_nonNan (hmem _ x.2) (hmem _ y.2) (hmem _ z.2) hxy hyz
  have total' : ∀ x y : {o // o ∈ offers.map simplifyOffer},
      offerSortLe x.1 y.1 || offerSortLe y.1 x.1 :=
    fun x y => offerSortLe_total x.1 y.1
  have hmap : ((offers.map simplifyOffer).attach.mergeSort
        (fun a b => offerSortLe a.1 b.1)).map Subtype.val
      = (offers.map simplifyOffer).mergeSort offerSortLe := by
    rw [@List.map_mergeSort _ _ (fun a b => offerSortLe a.1 b.1) offerSortLe
        Subtype.val ((offers.map simplifyOffer).attach) (fun a _ b _ => rfl),
      List.attach_map_subtype_val]
  have hsorted' := List.sorted_mergeSort trans' total'
    (offers.map simplifyOffer).attach
  have hsorted : ((offers.map simplifyOffer).mergeSort
      offerSortLe).Pairwise (fun x y => offerSortLe x y = true) := by
    rw [← hmap]
    exact List.Pairwise.map _ (fun {x y} hxy => hxy) hsorted'
  refine ⟨?_, ?_, ?_, ?_⟩
  · unfold simplifyAndRank
    simp [List.length_take, List.length_mergeSort]
  · have hpair : (simplifyAndRank offers).Pairwise
        (fun x y => offerSortLe x y = true) :=
      hsorted.sublist (List.take_sublist _ _)
    refine hpair.imp_of_mem (fun {x y} hx hy hxy => ?_)
    have hx' : x ∈ offers.map simplifyOffer := by
      have := List.mem_of_mem_take hx
      exact List.mem_mergeSort.1 this
    have hy' : y ∈ offers.map simplifyOffer := by
      have := List.mem_of_mem_take hy
      exact List.mem_mergeSort.1 this
    exact offerKeyLe_of_sortLe (hmem _ hx') (hmem _ hy') hxy
  · intro k
    have hc'map : ((offers.map simplifyOffer).attach.filter
          (fun x => decide (offerKey x.1 = k))).map Subtype.val
        = (offers.map simplifyOffer).filter (fun o => decide (offerKey o = k)) := by
      have hfm := @List.filter_map _ _ (fun o => decide (offerKey o = k))
        Subtype.val ((offers.map simplifyOffer).attach)
      rw [List.attach_map_subtype_val] at hfm
      exact hfm.symm
    have hpairc : ((offers.map simplifyOffer).attach.filter
        (fun x => decide (offerKey x.1 = k))).Pairwise
          (fun a b => offerSortLe a.1 b.1 = true) := by
      refine List.pairwise_of_forall_mem_list (fun a hax b hbx => ?_)
      have hak := List.of_mem_filter hax
      have hbk := List.of_mem_filter hbx
      simp only [decide_eq_true_eq] at hak hbk
      exact offerSortLe_of_key_eq (hak.trans hbk.symm)
    have hsubl : ((offers.map simplifyOffer).attach.filter
          (fun x => decide (offerKey x.1 = k))).Sublist
        (offers.map simplifyOffer).attach :=
      List.filter_sublist _
    have hbig := List.sublist_mergeSort trans' total' hpairc hsubl
    have hmapped := hbig.map Subtype.val
    rw [hc'map, hmap] at hmapped
    have hself : ((offers.map simplifyOffer).filter
          (fun o => decide (offerKey o = k))).filter
            (fun o => decide (offerKey o = k))
        = (offers.map simplifyOffer).filter (fun o => decide (offerKey o = k)) :=
      List.filter_eq_self.mpr (fun a ha => (List.mem_filter.mp ha).2)
    have hsub2 := hmapped.filter (fun o => decide (offerKey o = k))
    rw [hself] at hsub2
    have hperm : List.Perm
        (((offers.map simplifyOffer).mergeSort offerSortLe).filter
          (fun o => decide (offerKey o = k)))
        ((offers.map simplifyOffer).filter (fun o => decide (offerKey o = k))) :=
      (List.mergeSort_perm (offers.map simplifyOffer) offerSortLe).filter _
    have heqf : ((offers.map simplifyOffer).mergeSort offerSortLe).filter
          (fun o => decide (offerKey o = k))
        = (offers.map simplifyOffer).filter (fun o => decide (offerKey o = k)) :=
      (hsub2.eq_of_length hperm.length_eq.symm).symm
    refine ⟨(((offers.map simplifyOffer).mergeSort offerSortLe).drop 12).filter
      (fun o => decide (offerKey o = k)), ?_⟩
    rw [← heqf]
    unfold simplifyAndRank
    rw [← List.filter_append, List.take_append_drop]
  · intro hlen
    unfold simplifyAndRank
    rw [List.take_of_length_le]
    · exact List.mergeSort_perm _ _
    · rw [List.length_mergeSort, List.length_map]
      exact hlen

/-- C6 (witness): three offers with a tie on price broken by stops. -/
theorem c6_ranker_sorted_stable_witness :
    (simplifyAndRank
        [⟨some ⟨some "300.00"⟩, some [], some "A"⟩,
         ⟨some ⟨some "200.00"⟩, some [], some "B"⟩]).length
      = min 12 2 ∧
    (simplifyAndRank
        [⟨some ⟨some "300.00"⟩, some [], some "A"⟩,
         ⟨some ⟨some "200.00"⟩, some [], some "B"⟩]).Pairwise offerKeyLe ∧
    (∀ k : JsNum × Nat,
      (simplifyAndRank
          [⟨some ⟨some "300.00"⟩, some [], some "A"⟩,
           ⟨some ⟨some "200.00"⟩, some [], some "B"⟩]).filter
            (fun o => decide (offerKey o = k)) <+:
        ([(⟨some ⟨some "300.00"⟩, some [], some "A"⟩ : RawOffer),
          ⟨some ⟨some "200.00"⟩, some [], some "B"⟩].map simplifyOffer).filter
          (fun o => decide (offerKey o = k))) ∧
    (([(⟨some ⟨some "300.00"⟩, some [], some "A"⟩ : RawOffer),
        ⟨some ⟨some "200.00"⟩, some [], some "B"⟩] : List RawOffer).length ≤ 12 →
      List.Perm
        (simplifyAndRank
          [⟨some ⟨some "300.00"⟩, some [], some "A"⟩,
           ⟨some ⟨some "200.00"⟩, some [], some "B"⟩])
        ([(⟨some ⟨some "300.00"⟩, some [], some "A"⟩ : RawOffer),
          ⟨some ⟨some "200.00"⟩, some [], some "B"⟩].map simplifyOffer)) :=
  c6_ranker_sorted_stable
    [⟨some ⟨some "300.00"⟩, some [], some "A"⟩,
     ⟨some ⟨some "200.00"⟩, some [], some "B"⟩]
    (by decide)

end FlightFinder
